import Mathlib

/-!
# XPath engine entry points and the test tree navigator

A shallow embedding of `xpath.go` (the public entry points `Compile`, `Select`,
`Expr.SelectWithNS`, `Expr.EvaluateWithNS`, `NodeIterator.MoveNext`) and of the
tree cursor `TNodeNavigator` of `select_test.go`.

Conventions of the embedding:

* A Go pointer to a `TNode` is a natural number, and a tree is a total map from
  these numbers to node records; a nil link inside a node is `none`.
* A Go pointer to a `TNodeNavigator` is an address into a `Heap` of cursor
  objects, so that aliasing (two names for one mutable cursor) and `Copy`
  (a fresh object) can be told apart.
* A Go pointer to a plan (a value of the interface `query`) is an address
  into a heap of plan states.
* A Go panic is `none` (or `Except.error` where the panic carries a value),
  and so is a loop that does not finish within its fuel.
* The interface `query` and the function `build` are not among the sources;
  they are parameters of the embedding. The cursors of an iterator are
  `TNodeNavigator` objects, the implementation of `NodeNavigator` that the
  repository has.
-/

namespace XPath

/-! ## The data model of `select_test.go` -/

/-- The kinds of node, `NodeType` of `xpath.go`. -/
inductive NodeType where
  | RootNode
  | ElementNode
  | AttributeNode
  | TextNode
  | CommentNode
  | allNode
  deriving DecidableEq, Repr, Inhabited

/-- An attribute of an element, `Attribute` of `select_test.go`. -/
structure Attribute where
  Key : String
  Value : String
  deriving DecidableEq, Repr, Inhabited

/-- A tree node, `TNode` of `select_test.go`. The five links are pointers in the
source; here they are optional node numbers. The field `Typ` is the source's
`Type`. -/
structure TNode where
  Parent : Option Nat
  FirstChild : Option Nat
  LastChild : Option Nat
  PrevSibling : Option Nat
  NextSibling : Option Nat
  Typ : NodeType
  Data : String
  Attr : List Attribute
  deriving DecidableEq, Repr, Inhabited

/-- The memory holding the tree nodes: node number to node record. -/
abbrev Tree := Nat → TNode

/-- The cursor `TNodeNavigator` of `select_test.go`: the current node, the node
the cursor was created on, and the index of the current attribute (`-1` when
the cursor is on the node itself). -/
structure TNodeNavigator where
  curr : Nat
  root : Nat
  attr : Int
  deriving DecidableEq, Repr, Inhabited

/-- The function `createNavigator`: a cursor on `n`, rooted at `n`, on no attribute. -/
def createNavigator (n : Nat) : TNodeNavigator :=
  { curr := n, root := n, attr := -1 }

/-- Go slice indexing `xs[i]` with an `int` index: `none` stands for the
index-out-of-range panic. -/
def index {α : Type} (xs : List α) (i : Int) : Option α :=
  if 0 ≤ i then xs.get? i.toNat else none

namespace TNodeNavigator

/-- The method `NodeType`. -/
def NodeType (t : Tree) (n : TNodeNavigator) : XPath.NodeType :=
  if (t n.curr).Typ = XPath.NodeType.ElementNode ∧ n.attr ≠ -1 then
    XPath.NodeType.AttributeNode
  else
    (t n.curr).Typ

/-- The method `LocalName`; `none` is the index-out-of-range panic. -/
def LocalName (t : Tree) (n : TNodeNavigator) : Option String :=
  if n.attr ≠ -1 then
    (index (t n.curr).Attr n.attr).map Attribute.Key
  else
    some (t n.curr).Data

/-- The loop of `Value` over the children of an element: the trimmed data of
the text children, concatenated. The trimming function `strings.TrimSpace` is
a parameter. `none` when the sibling chain is longer than the fuel. -/
def childText (t : Tree) (trimSpace : String → String) : Nat → Option Nat → String → Option String
  | _, none, buf => some buf
  | 0, some _, _ => none
  | fuel + 1, some node, buf =>
    childText t trimSpace fuel (t node).NextSibling
      (if (t node).Typ = XPath.NodeType.TextNode then buf ++ trimSpace (t node).Data else buf)

/-- The method `Value`; `none` is the index-out-of-range panic (or a sibling
chain longer than the fuel). -/
def Value (t : Tree) (trimSpace : String → String) (fuel : Nat) (n : TNodeNavigator) :
    Option String :=
  match (t n.curr).Typ with
  | XPath.NodeType.CommentNode => some (t n.curr).Data
  | XPath.NodeType.ElementNode =>
    if n.attr ≠ -1 then
      (index (t n.curr).Attr n.attr).map Attribute.Value
    else
      childText t trimSpace fuel (t n.curr).FirstChild ""
  | XPath.NodeType.TextNode => some (t n.curr).Data
  | _ => some ""

/-- The method `Copy` on the cursor value: `n2 := *n`. -/
def Copy (n : TNodeNavigator) : TNodeNavigator := n

/-- The method `MoveToRoot`. -/
def MoveToRoot (n : TNodeNavigator) : TNodeNavigator :=
  { n with curr := n.root }

/-- The method `MoveToParent`: the result and the cursor afterwards. -/
def MoveToParent (t : Tree) (n : TNodeNavigator) : Bool × TNodeNavigator :=
  match (t n.curr).Parent with
  | some node => (true, { n with curr := node })
  | none => (false, n)

/-- The method `MoveToNextAttribute`. -/
def MoveToNextAttribute (t : Tree) (n : TNodeNavigator) : Bool × TNodeNavigator :=
  if n.attr ≥ ((t n.curr).Attr.length : Int) - 1 then
    (false, n)
  else
    (true, { n with attr := n.attr + 1 })

/-- The method `MoveToChild`. -/
def MoveToChild (t : Tree) (n : TNodeNavigator) : Bool × TNodeNavigator :=
  match (t n.curr).FirstChild with
  | some node => (true, { n with curr := node })
  | none => (false, n)

/-- The loop of `MoveToFirst`: follow `PrevSibling` until it is nil. `none`
when the chain is longer than the fuel. -/
def moveToFirstLoop (t : Tree) : Nat → TNodeNavigator → Option TNodeNavigator
  | 0, _ => none
  | fuel + 1, n =>
    match (t n.curr).PrevSibling with
    | none => some n
    | some node => moveToFirstLoop t fuel { n with curr := node }

/-- The method `MoveToFirst`. -/
def MoveToFirst (t : Tree) (fuel : Nat) (n : TNodeNavigator) : Option (Bool × TNodeNavigator) :=
  if (t n.curr).PrevSibling = none then
    some (false, n)
  else
    (moveToFirstLoop t fuel n).map (fun n2 => (true, n2))

/-- The method `MoveToNext`. -/
def MoveToNext (t : Tree) (n : TNodeNavigator) : Bool × TNodeNavigator :=
  match (t n.curr).NextSibling with
  | some node => (true, { n with curr := node })
  | none => (false, n)

/-- The method `MoveToPrevious`. -/
def MoveToPrevious (t : Tree) (n : TNodeNavigator) : Bool × TNodeNavigator :=
  match (t n.curr).PrevSibling with
  | some node => (true, { n with curr := node })
  | none => (false, n)

/-- The method `MoveTo`. The argument is the outcome of the type assertion
`node, ok := other.(*TNodeNavigator)`: `none` when `other` is not a
`TNodeNavigator`, and the cursor it points to otherwise. -/
def MoveTo (n : TNodeNavigator) (other : Option TNodeNavigator) : Bool × TNodeNavigator :=
  match other with
  | none => (false, n)
  | some node =>
    if node.root ≠ n.root then (false, n)
    else (true, { n with curr := node.curr, attr := node.attr })

end TNodeNavigator

/-! ## Building trees: `createNode`, `createChildNode`, `addAttribute`, `example` -/

/-- The function `createNode`. -/
def createNode (data : String) (typ : NodeType) : TNode :=
  { Parent := none, FirstChild := none, LastChild := none, PrevSibling := none,
    NextSibling := none, Typ := typ, Data := data, Attr := [] }

/-- The method `createChildNode` on node `t` of the node list `s`: the new list
and the number of the new node. `none` is a nil dereference. -/
def createChildNode (s : List TNode) (t : Nat) (data : String) (typ : NodeType) :
    Option (List TNode × Nat) :=
  match s.get? t with
  | none => none
  | some tn =>
    let id := s.length
    let n := { createNode data typ with Parent := some t }
    match tn.FirstChild with
    | none =>
      some ((s.set t { tn with FirstChild := some id, LastChild := some id }) ++ [n], id)
    | some _ =>
      match tn.LastChild with
      | none => none
      | some l =>
        match s.get? l with
        | none => none
        | some ln =>
          let s1 := s.set l { ln with NextSibling := some id }
          match s1.get? t with
          | none => none
          | some tn1 =>
            some ((s1.set t { tn1 with LastChild := some id }) ++
              [{ n with PrevSibling := some l }], id)

/-- The method `addAttribute`. -/
def addAttribute (s : List TNode) (t : Nat) (k v : String) : Option (List TNode) :=
  match s.get? t with
  | none => none
  | some tn => some (s.set t { tn with Attr := tn.Attr ++ [{ Key := k, Value := v }] })

/-- One statement of the function `example`: `n := t.createChildNode(data, typ)`
with the node number `n` that the call returns, or `t.addAttribute(k, v)`. -/
inductive BuildStep where
  | child (n : Nat) (t : Nat) (data : String) (typ : NodeType)
  | attr (t : Nat) (k v : String)

/-- Run the statements of a tree builder in order. `none` when a statement
dereferences nil or when `createChildNode` returns another node number than
the statement names. -/
def runBuild : List BuildStep → List TNode → Option (List TNode)
  | [], s => some s
  | BuildStep.child n t data typ :: rest, s =>
    match createChildNode s t data typ with
    | none => none
    | some (s1, id) => if id = n then runBuild rest s1 else none
  | BuildStep.attr t k v :: rest, s =>
    match addAttribute s t k v with
    | none => none
    | some s1 => runBuild rest s1

/-- The statements of the function `example`, in source order. The node
`doc` is number 0, `xhtml` 1, `head` 2, `body` 6, `ul` 9. -/
def exampleSteps : List BuildStep :=
  [ BuildStep.child 1 0 "html" NodeType.ElementNode,
    BuildStep.attr 1 "lang" "en",
    BuildStep.child 2 1 "head" NodeType.ElementNode,
    BuildStep.child 3 2 "title" NodeType.ElementNode,
    BuildStep.child 4 3 "Hello" NodeType.TextNode,
    BuildStep.child 5 2 "meta" NodeType.ElementNode,
    BuildStep.attr 5 "name" "language",
    BuildStep.attr 5 "content" "en",
    BuildStep.child 6 1 "body" NodeType.ElementNode,
    BuildStep.child 7 6 "h1" NodeType.ElementNode,
    BuildStep.child 8 7 "Hello" NodeType.TextNode,
    BuildStep.child 9 6 "ul" NodeType.ElementNode,
    BuildStep.child 10 9 "li" NodeType.ElementNode,
    BuildStep.child 11 10 "a" NodeType.ElementNode,
    BuildStep.attr 11 "id" "1",
    BuildStep.attr 11 "href" "/",
    BuildStep.child 12 11 "Home" NodeType.TextNode,
    BuildStep.child 13 9 "li" NodeType.ElementNode,
    BuildStep.child 14 13 "a" NodeType.ElementNode,
    BuildStep.attr 14 "id" "2",
    BuildStep.attr 14 "href" "/about",
    BuildStep.child 15 14 "about" NodeType.TextNode,
    BuildStep.child 16 9 "li" NodeType.ElementNode,
    BuildStep.child 17 16 "a" NodeType.ElementNode,
    BuildStep.attr 17 "id" "3",
    BuildStep.attr 17 "href" "/account",
    BuildStep.child 18 17 "login" NodeType.TextNode,
    BuildStep.child 19 9 "li" NodeType.ElementNode,
    BuildStep.child 20 6 "p" NodeType.ElementNode,
    BuildStep.child 21 20 "Hello,This is an example for gxpath." NodeType.TextNode,
    BuildStep.child 22 6 "footer" NodeType.ElementNode,
    BuildStep.child 23 22 "footer script" NodeType.TextNode ]

/-- The node list that the function `example` builds, starting from the
document node `createNode("", RootNode)`. -/
def exampleNodes : List TNode :=
  (runBuild exampleSteps [createNode "" NodeType.RootNode]).getD []

/-- The tree memory of the sample document. -/
def exampleTree : Tree := fun i => exampleNodes.getD i default

/-- The value `html` of the tests: the `html` element that `example` returns. -/
def html : Nat := 1

/-! ## Cursor objects in memory -/

/-- A value of the interface `NodeNavigator`, as a method receives it: either a
pointer to a `TNodeNavigator`, or a cursor of some other implementation. -/
inductive NodeNavigator where
  | tnode (a : Nat)
  | foreign (k : Nat)
  deriving DecidableEq, Repr

/-- The memory holding the cursor objects: the object at each address, and
the first address not yet allocated. -/
structure Heap where
  cells : Nat → TNodeNavigator
  next : Nat

namespace Heap

/-- The type assertion `other.(*TNodeNavigator)` followed by the dereference. -/
def asTNode (h : Heap) : NodeNavigator → Option TNodeNavigator
  | NodeNavigator.tnode a => some (h.cells a)
  | NodeNavigator.foreign _ => none

/-- Overwrite the object at address `a`. -/
def write (h : Heap) (a : Nat) (v : TNodeNavigator) : Heap :=
  { h with cells := Function.update h.cells a v }

/-- Allocate a new object holding `v`: its address and the new memory. -/
def alloc (h : Heap) (v : TNodeNavigator) : Nat × Heap :=
  (h.next, { cells := Function.update h.cells h.next v, next := h.next + 1 })

end Heap

/-- The method `Copy` on the object at address `a`: `n2 := *n; return &n2`. -/
def CopyAt (h : Heap) (a : Nat) : Nat × Heap :=
  h.alloc (TNodeNavigator.Copy (h.cells a))

/-- The method `MoveTo` on the object at address `a`: the result and the
memory afterwards. -/
def MoveToAt (h : Heap) (a : Nat) (other : NodeNavigator) : Bool × Heap :=
  let r := TNodeNavigator.MoveTo (h.cells a) (h.asTNode other)
  (r.1, h.write a r.2)

/-- The move operations of a `TNodeNavigator`. `MoveToFirst` carries the fuel
of its loop. -/
inductive Move where
  | MoveToRoot
  | MoveToParent
  | MoveToChild
  | MoveToFirst (fuel : Nat)
  | MoveToNext
  | MoveToPrevious
  | MoveToNextAttribute
  | MoveTo (other : NodeNavigator)

/-- The cursor after one move operation; `none` when the loop of `MoveToFirst`
runs out of fuel. -/
def Move.run (t : Tree) (h : Heap) (n : TNodeNavigator) : Move → Option TNodeNavigator
  | Move.MoveToRoot => some n.MoveToRoot
  | Move.MoveToParent => some (n.MoveToParent t).2
  | Move.MoveToChild => some (n.MoveToChild t).2
  | Move.MoveToFirst fuel => (n.MoveToFirst t fuel).map Prod.snd
  | Move.MoveToNext => some (n.MoveToNext t).2
  | Move.MoveToPrevious => some (n.MoveToPrevious t).2
  | Move.MoveToNextAttribute => some (n.MoveToNextAttribute t).2
  | Move.MoveTo other => some (n.MoveTo (h.asTNode other)).2

/-- One move operation called on the object at address `a`. -/
def applyMove (t : Tree) (a : Nat) (h : Heap) (m : Move) : Option Heap :=
  (m.run t h (h.cells a)).map (fun n => h.write a n)

/-- A sequence of move operations called on the object at address `a`. -/
def applyMoves (t : Tree) (a : Nat) : List Move → Heap → Option Heap
  | [], h => some h
  | m :: ms, h => (applyMove t a h m).bind (applyMoves t a ms)

/-! ## The plan interface and the entry points of `xpath.go` -/

/-- The dynamic type of what a plan's `Evaluate` returns, as the type switch of
`EvaluateWithNS` sees it: a `query`, or any other value. -/
inductive Val (V : Type) where
  | query
  | plain (v : V)
  deriving DecidableEq, Repr

/-- Modelled from the spec: the interface `query` (its declaration and its
implementations are not among the sources). A plan object has a mutable state
of type `σ`. `Select` and `Evaluate` receive the iterator, that is the
resolver and the current cursor object; they return their result, the new
state of the plan and the position in which they leave the current cursor
(they hold a pointer to it and may move it). `Select` yields the next matching
cursor or nil. `Clone` gives the state of a new, independent plan object and
leaves its receiver alone. -/
structure query (σ V : Type) where
  Select : σ → (String → String) → TNodeNavigator → Option TNodeNavigator × σ × TNodeNavigator
  Evaluate : σ → (String → String) → TNodeNavigator → Val V × σ × TNodeNavigator
  Clone : σ → σ

/-- The memory of a run: the cursor objects, the plan objects, and the first
plan address not yet allocated. -/
structure World (σ : Type) where
  navs : Heap
  plans : Nat → σ
  plansNext : Nat

/-- The struct `NodeIterator`: pointers to its cursor and to its plan, and the
resolver. -/
structure NodeIterator where
  node : Nat
  query : Nat
  ns2prefix : String → String

/-- The struct `Expr`: the source text and a pointer to the plan. -/
structure Expr where
  s : String
  q : Nat
  deriving DecidableEq, Repr

/-- The method `NodeIterator.Current`: the iterator's cursor object. -/
def NodeIterator.Current (t : NodeIterator) : Nat := t.node

/-- The method `NodeIterator.MoveNext`: the result, the memory afterwards
and the iterator afterwards. -/
def NodeIterator.MoveNext {σ V : Type} (Q : XPath.query σ V) (w : World σ) (t : NodeIterator) :
    Bool × World σ × NodeIterator :=
  match Q.Select (w.plans t.query) t.ns2prefix (w.navs.cells t.node) with
  | (none, q1, cur) =>
    (false,
      { w with navs := w.navs.write t.node cur,
               plans := Function.update w.plans t.query q1 },
      t)
  | (some n, q1, cur) =>
    if (TNodeNavigator.MoveTo cur (some n)).1 then
      (true,
        { w with navs := w.navs.write t.node (TNodeNavigator.MoveTo cur (some n)).2,
                 plans := Function.update w.plans t.query q1 },
        t)
    else
      (true,
        { w with navs := ((w.navs.write t.node cur).alloc n.Copy).2,
                 plans := Function.update w.plans t.query q1 },
        { t with node := ((w.navs.write t.node cur).alloc n.Copy).1 })

/-- The method `Expr.SelectWithNS`: the new iterator, running on a clone of
the plan, and the memory afterwards. -/
def Expr.SelectWithNS {σ V : Type} (Q : query σ V) (w : World σ) (e : Expr) (root : Nat)
    (ns : String → String) : NodeIterator × World σ :=
  ({ query := w.plansNext, node := root, ns2prefix := ns },
    { w with plans := Function.update w.plans w.plansNext (Q.Clone (w.plans e.q)),
             plansNext := w.plansNext + 1 })

/-- The method `Expr.Select`. -/
def Expr.Select {σ V : Type} (Q : query σ V) (w : World σ) (e : Expr) (root : Nat) :
    NodeIterator × World σ :=
  Expr.SelectWithNS Q w e root (fun ns => ns)

/-- What `EvaluateWithNS` returns: a `*NodeIterator`, or the value of the plan. -/
inductive EvalOut (V : Type) where
  | iterator (t : NodeIterator)
  | value (v : V)

/-- The method `Expr.EvaluateWithNS`: the result and the memory afterwards. -/
def Expr.EvaluateWithNS {σ V : Type} (Q : query σ V) (w : World σ) (e : Expr) (root : Nat)
    (ns : String → String) : EvalOut V × World σ :=
  match Q.Evaluate (w.plans e.q) ns (w.navs.cells root) with
  | (Val.query, q1, cur) =>
    let w1 : World σ :=
      { w with navs := w.navs.write root cur, plans := Function.update w.plans e.q q1 }
    let r := Expr.SelectWithNS Q w1 e root ns
    (EvalOut.iterator r.1, r.2)
  | (Val.plain v, q1, cur) =>
    (EvalOut.value v,
      { w with navs := w.navs.write root cur, plans := Function.update w.plans e.q q1 })

/-- The method `Expr.Evaluate`. -/
def Expr.Evaluate {σ V : Type} (Q : query σ V) (w : World σ) (e : Expr) (root : Nat) :
    EvalOut V × World σ :=
  Expr.EvaluateWithNS Q w e root (fun ns => ns)

/-- The errors of `Compile`: the empty expression, an error of `build`, and
the undeclared variable. -/
inductive CompileError (E : Type) where
  | exprIsNil
  | fromBuild (err : E)
  | undeclaredVariable (expr : String)
  deriving DecidableEq, Repr

/-- The function `Compile`. The function `build` is not among the sources and
is a parameter: for the expression text it returns the state of the plan it
built (or nil) and an error (or nil). The result is the pair `(*Expr, error)`
and the memory afterwards, in which the plan is allocated. -/
def Compile {σ E : Type} (build : String → Option σ × Option E) (w : World σ) (expr : String) :
    (Option Expr × Option (CompileError E)) × World σ :=
  if expr = "" then
    ((none, some CompileError.exprIsNil), w)
  else
    match build expr with
    | (_, some err) => ((none, some (CompileError.fromBuild err)), w)
    | (none, none) => ((none, some (CompileError.undeclaredVariable expr)), w)
    | (some qy, none) =>
      ((some { s := expr, q := w.plansNext }, none),
        { w with plans := Function.update w.plans w.plansNext qy,
                 plansNext := w.plansNext + 1 })

/-- What a panicking call aborts with: the value given to `panic`, or the
runtime error of a nil dereference. -/
inductive Panic (E : Type) where
  | compile (err : CompileError E)
  | nilDereference
  deriving DecidableEq, Repr

/-- The one-shot function `Select`: `Except.error` is the panic. -/
def Select {σ V E : Type} (build : String → Option σ × Option E) (Q : query σ V) (w : World σ)
    (root : Nat) (expr : String) : Except (Panic E) (NodeIterator × World σ) :=
  match Compile build w expr with
  | ((_, some err), _) => Except.error (Panic.compile err)
  | ((none, none), _) => Except.error Panic.nilDereference
  | ((some exp, none), w1) => Except.ok (Expr.Select Q w1 exp root)

/-- The iterator and the memory after `k` calls of `MoveNext`. -/
def moveNextN {σ V : Type} (Q : query σ V) : Nat → World σ → NodeIterator → World σ × NodeIterator
  | 0, w, t => (w, t)
  | k + 1, w, t => moveNextN Q k (NodeIterator.MoveNext Q w t).2.1 (NodeIterator.MoveNext Q w t).2.2

/-- The loop of `selectNodes`: call `MoveNext` until it returns false and
collect the position of `Current()` after each call that returned true.
`none` when the loop needs more than `fuel` calls. -/
def selectLoop {σ V : Type} (Q : query σ V) : Nat → World σ → NodeIterator →
    Option (List TNodeNavigator)
  | 0, _, _ => none
  | fuel + 1, w, t =>
    let r := NodeIterator.MoveNext Q w t
    if r.1 then
      (selectLoop Q fuel r.2.1 r.2.2).map (fun l => r.2.1.navs.cells r.2.2.Current :: l)
    else
      some []

/-- A sequence of move operations on a cursor value, in the memory `h` (read
by `MoveTo` only). -/
def runMoves (t : Tree) (h : Heap) : List Move → TNodeNavigator → Option TNodeNavigator
  | [], n => some n
  | m :: ms, n => (m.run t h n).bind (runMoves t h ms)

/-- The bound that keeps `Attr[attr]` in range: on no attribute, or on one of
the attributes of the current node. -/
def attrInRange (t : Tree) (n : TNodeNavigator) : Prop :=
  n.attr = -1 ∨ (0 ≤ n.attr ∧ n.attr < ((t n.curr).Attr.length : Int))

instance (t : Tree) (n : TNodeNavigator) : Decidable (attrInRange t n) := by
  unfold attrInRange
  exact inferInstance

/-! ## Sample plans and sample memories

The plans below are small instances of the interface `query`, used to run the
entry points on concrete inputs. -/

/-- The state of the sample child-axis plan: not started, on a child, or
exhausted. -/
inductive ChildState where
  | unstarted
  | iterating (n : TNodeNavigator)
  | done
  deriving DecidableEq, Repr

/-- A sample plan for the child axis: it copies the context cursor, and yields
the children of the context node one after the other. `Evaluate` rewinds the
plan and returns the plan itself; `Clone` gives a plan that is not started. -/
def childrenQuery (t : Tree) : query ChildState Nat where
  Select := fun s _ cur =>
    match s with
    | ChildState.unstarted =>
      if (cur.Copy.MoveToChild t).1 then
        (some (cur.Copy.MoveToChild t).2, ChildState.iterating (cur.Copy.MoveToChild t).2, cur)
      else (none, ChildState.done, cur)
    | ChildState.iterating n =>
      if (n.MoveToNext t).1 then
        (some (n.MoveToNext t).2, ChildState.iterating (n.MoveToNext t).2, cur)
      else (none, ChildState.done, cur)
    | ChildState.done => (none, ChildState.done, cur)
  Evaluate := fun _ _ cur => (Val.query, ChildState.unstarted, cur)
  Clone := fun _ => ChildState.unstarted

/-- Call `Select` until it yields nil and count the nodes it yielded. -/
def drain {σ V : Type} (Q : query σ V) (ns : String → String) :
    Nat → σ → TNodeNavigator → Nat × σ × TNodeNavigator
  | 0, s, cur => (0, s, cur)
  | fuel + 1, s, cur =>
    match Q.Select s ns cur with
    | (none, s1, cur1) => (0, s1, cur1)
    | (some _, s1, cur1) => ((drain Q ns fuel s1 cur1).1 + 1, (drain Q ns fuel s1 cur1).2)

/-- A sample plan for `count(*)`: `Evaluate` exhausts the child axis and
returns the number of children; the plan is left exhausted. -/
def countQuery (t : Tree) : query ChildState Nat where
  Select := fun s _ cur => (none, s, cur)
  Evaluate := fun s ns cur =>
    (Val.plain (drain (childrenQuery t) ns 64 s cur).1,
      (drain (childrenQuery t) ns 64 s cur).2)
  Clone := fun _ => ChildState.unstarted

/-- A sample plan that yields nothing at the first call of `Select`, a copy of
the context cursor at the second call, and nothing afterwards. The state
counts the calls. -/
def lateQuery : query Nat Nat where
  Select := fun s _ cur =>
    if s = 1 then (some cur.Copy, 2, cur) else (none, s + 1, cur)
  Evaluate := fun s _ cur => (Val.query, s, cur)
  Clone := fun _ => 0

/-- A sample plan in the manner of a filter that rejects its candidate: it
moves the iterator's cursor onto the first child of the context node, to test
it, and yields nothing. -/
def probeQuery (t : Tree) : query Unit Nat where
  Select := fun s _ cur => (none, s, (cur.MoveToChild t).2)
  Evaluate := fun s _ cur => (Val.query, s, cur)
  Clone := fun s => s

/-- A memory with two cursor objects, at addresses 0 and 1, both as
`createNavigator(html)` makes them. -/
def sampleHeap : Heap :=
  { cells := fun _ => createNavigator html, next := 2 }

/-- A memory with the cursors of `sampleHeap` and one plan object, at address
0, in state `s0`. -/
def sampleWorld {σ : Type} (s0 : σ) : World σ :=
  { navs := sampleHeap, plans := fun _ => s0, plansNext := 1 }

/-- A compiled expression whose plan is the plan object at address 0. -/
def sampleExpr : Expr := { s := "*", q := 0 }

/-- A fresh iterator of the sample child-axis plan on the sample document,
from the cursor at address 0, and the memory after `Expr.Select`. -/
def childrenStart : NodeIterator × World ChildState :=
  Expr.Select (childrenQuery exampleTree) (sampleWorld ChildState.unstarted) sampleExpr 0

/-- A fresh iterator of `lateQuery`, from the cursor at address 0. -/
def lateStart : NodeIterator × World Nat :=
  Expr.Select lateQuery (sampleWorld 0) sampleExpr 0

/-- A fresh iterator of `probeQuery` on the sample document, from the cursor
at address 0. -/
def probeStart : NodeIterator × World Unit :=
  Expr.Select (probeQuery exampleTree) (sampleWorld ()) sampleExpr 0

/-! ## Lemmas on the cursor memory -/

theorem Heap.write_cells_same (h : Heap) (a : Nat) (v : TNodeNavigator) :
    (h.write a v).cells a = v := by
  simp [Heap.write]

theorem Heap.write_cells_ne (h : Heap) (a b : Nat) (v : TNodeNavigator) (hb : b ≠ a) :
    (h.write a v).cells b = h.cells b := by
  simp [Heap.write, Function.update_noteq hb]

theorem Heap.write_next (h : Heap) (a : Nat) (v : TNodeNavigator) :
    (h.write a v).next = h.next := rfl

theorem Heap.write_self (h : Heap) (a : Nat) : h.write a (h.cells a) = h := by
  cases h
  simp [Heap.write]

theorem applyMove_frame (t : Tree) (a b : Nat) (h h2 : Heap) (m : Move)
    (hm : applyMove t a h m = some h2) (hb : b ≠ a) :
    h2.cells b = h.cells b ∧ h2.next = h.next := by
  unfold applyMove at hm
  cases hr : m.run t h (h.cells a) with
  | none => simp [hr] at hm
  | some n =>
    simp [hr] at hm
    subst hm
    exact ⟨Heap.write_cells_ne h a b n hb, rfl⟩

theorem applyMoves_frame (t : Tree) (a b : Nat) (hb : b ≠ a) (ms : List Move) :
    ∀ (h h2 : Heap), applyMoves t a ms h = some h2 →
      h2.cells b = h.cells b ∧ h2.next = h.next := by
  induction ms with
  | nil =>
    intro h h2 hm
    simp [applyMoves] at hm
    subst hm
    exact ⟨rfl, rfl⟩
  | cons m ms ih =>
    intro h h2 hm
    simp only [applyMoves] at hm
    cases h1 : applyMove t a h m with
    | none => simp [h1] at hm
    | some hmid =>
      simp [h1] at hm
      have f1 := applyMove_frame t a b h hmid m h1 hb
      have f2 := ih hmid h2 hm
      exact ⟨f2.1.trans f1.1, f2.2.trans f1.2⟩

/-! ## Properties of `TNodeNavigator` -/

/-- C7: the cursor that `Copy` returns is a new object at the same position as
its receiver (same `curr`, `root` and `attr`), and any sequence of move
operations called on one of the two objects leaves the other one as it was. -/
theorem Copy_independent (t : Tree) (h : Heap) (a : Nat) (ha : a < h.next) :
    (CopyAt h a).1 ≠ a ∧
    (CopyAt h a).2.cells (CopyAt h a).1 = h.cells a ∧
    (CopyAt h a).2.cells a = h.cells a ∧
    (∀ ms h2, applyMoves t (CopyAt h a).1 ms (CopyAt h a).2 = some h2 →
      h2.cells a = h.cells a) ∧
    (∀ ms h2, applyMoves t a ms (CopyAt h a).2 = some h2 →
      h2.cells (CopyAt h a).1 = h.cells a) := by
  have hne : h.next ≠ a := Nat.ne_of_gt ha
  have hc : (CopyAt h a).1 = h.next := rfl
  have h1 : (CopyAt h a).2.cells h.next = h.cells a := by
    simp [CopyAt, Heap.alloc, TNodeNavigator.Copy]
  have h2 : (CopyAt h a).2.cells a = h.cells a := by
    simp [CopyAt, Heap.alloc, Function.update_noteq hne.symm]
  refine ⟨hne, h1, h2, ?_, ?_⟩
  · intro ms h3 hm
    rw [hc] at hm
    exact ((applyMoves_frame t h.next a hne.symm ms _ h3 hm).1).trans h2
  · intro ms h3 hm
    rw [hc]
    exact ((applyMoves_frame t a h.next hne ms _ h3 hm).1).trans h1

/-- Witness of C7 on the sample document: the cursor at address 0 is copied,
and the copy is moved through the tree (with a `MoveToFirst` that returns). -/
theorem Copy_independent_witness :
    (0 < sampleHeap.next) ∧
    (applyMoves exampleTree 2
      [Move.MoveToChild, Move.MoveToNext, Move.MoveToFirst 5, Move.MoveToNextAttribute]
      (CopyAt sampleHeap 0).2).map (fun h2 => h2.cells 2)
        = some { curr := 2, root := 1, attr := -1 } ∧
    (CopyAt sampleHeap 0).1 ≠ 0 ∧
    (∀ h2, applyMoves exampleTree (CopyAt sampleHeap 0).1
      [Move.MoveToChild, Move.MoveToNext, Move.MoveToFirst 5, Move.MoveToNextAttribute]
      (CopyAt sampleHeap 0).2 = some h2 → h2.cells 0 = sampleHeap.cells 0) :=
  ⟨by decide, by decide,
    (Copy_independent exampleTree sampleHeap 0 (by decide)).1,
    fun h2 hm => (Copy_independent exampleTree sampleHeap 0 (by decide)).2.2.2.1 _ h2 hm⟩

/-- C8: `n.MoveTo(other)` returns true exactly when `other` is a
`TNodeNavigator` with the root of `n`; then `n` takes the `curr` and `attr` of
`other` and keeps its root; when it returns false `n` is unchanged. No other
cursor object changes, and `other` is unchanged in both cases. -/
theorem MoveTo_spec (h : Heap) (a : Nat) (other : NodeNavigator) :
    ((MoveToAt h a other).1 = true ↔
      ∃ b, other = NodeNavigator.tnode b ∧ (h.cells b).root = (h.cells a).root) ∧
    (∀ b, (MoveToAt h a other).1 = true → other = NodeNavigator.tnode b →
      ((MoveToAt h a other).2.cells a).curr = (h.cells b).curr ∧
      ((MoveToAt h a other).2.cells a).attr = (h.cells b).attr ∧
      ((MoveToAt h a other).2.cells a).root = (h.cells a).root) ∧
    ((MoveToAt h a other).1 = false → (MoveToAt h a other).2 = h) ∧
    (∀ b, other = NodeNavigator.tnode b → (MoveToAt h a other).2.cells b = h.cells b) ∧
    (∀ x, x ≠ a → (MoveToAt h a other).2.cells x = h.cells x) ∧
    (MoveToAt h a other).2.next = h.next := by
  cases other with
  | foreign k =>
    refine ⟨?_, ?_, ?_, ?_, ?_, rfl⟩
    · simp [MoveToAt, Heap.asTNode, TNodeNavigator.MoveTo]
    · intro b _ hb
      cases hb
    · intro _
      simp [MoveToAt, Heap.asTNode, TNodeNavigator.MoveTo, Heap.write_self]
    · intro b hb
      cases hb
    · intro x hx
      simp [MoveToAt, Heap.write_cells_ne _ _ _ _ hx]
  | tnode c =>
    by_cases hr : (h.cells c).root = (h.cells a).root
    · refine ⟨?_, ?_, ?_, ?_, ?_, rfl⟩
      · simp [MoveToAt, Heap.asTNode, TNodeNavigator.MoveTo, hr]
      · intro b _ hb
        cases hb
        simp [MoveToAt, Heap.asTNode, TNodeNavigator.MoveTo, hr, Heap.write_cells_same]
      · intro hf
        simp [MoveToAt, Heap.asTNode, TNodeNavigator.MoveTo, hr] at hf
      · intro b hb
        cases hb
        by_cases hca : c = a
        · subst hca
          simp [MoveToAt, Heap.asTNode, TNodeNavigator.MoveTo, Heap.write_cells_same]
        · simp [MoveToAt, Heap.write_cells_ne _ _ _ _ hca]
      · intro x hx
        simp [MoveToAt, Heap.write_cells_ne _ _ _ _ hx]
    · refine ⟨?_, ?_, ?_, ?_, ?_, rfl⟩
      · simp [MoveToAt, Heap.asTNode, TNodeNavigator.MoveTo, hr]
      · intro b hb
        simp [MoveToAt, Heap.asTNode, TNodeNavigator.MoveTo, hr] at hb
      · intro _
        simp [MoveToAt, Heap.asTNode, TNodeNavigator.MoveTo, hr, Heap.write_self]
      · intro b hb
        cases hb
        simp [MoveToAt, Heap.asTNode, TNodeNavigator.MoveTo, hr, Heap.write_self]
      · intro x hx
        simp [MoveToAt, Heap.write_cells_ne _ _ _ _ hx]

/-- C10, evaluated on the sample document: from `createNavigator(html)`,
`MoveToNextAttribute` (onto `lang`) and then `MoveToChild` (onto `head`, which
has no attribute) leave `attr = 0` on a node with zero attributes. The bound
on `attr` is broken, `NodeType` reports an attribute, and `LocalName` and
`Value` index `Attr` out of range. -/
theorem attr_out_of_range_after_MoveToChild :
    runMoves exampleTree sampleHeap [Move.MoveToNextAttribute, Move.MoveToChild]
      (createNavigator html) = some { curr := 2, root := 1, attr := 0 } ∧
    (exampleTree 2).Attr.length = 0 ∧
    ¬ attrInRange exampleTree { curr := 2, root := 1, attr := 0 } ∧
    TNodeNavigator.NodeType exampleTree { curr := 2, root := 1, attr := 0 }
      = NodeType.AttributeNode ∧
    TNodeNavigator.LocalName exampleTree { curr := 2, root := 1, attr := 0 } = none ∧
    (∀ trimSpace fuel,
      TNodeNavigator.Value exampleTree trimSpace fuel { curr := 2, root := 1, attr := 0 }
        = none) := by
  refine ⟨by decide, by decide, by decide, by decide, by decide, ?_⟩
  intro trimSpace fuel
  have ht : (exampleTree 2).Typ = NodeType.ElementNode := by decide
  have ha : (exampleTree 2).Attr = [] := by decide
  simp [TNodeNavigator.Value, ht, ha, index]

/-! ## Properties of `Compile` and of the one-shot `Select` -/

/-- C1: `Compile` returns an error together with a nil `Expr` exactly when the
expression is empty, or `build` reports an error, or `build` yields no plan;
in every other case it returns an `Expr` and a nil error (the `Expr` holds the
text and the plan that `build` made). It never returns both and never
neither. -/
theorem Compile_error_iff {σ E : Type} (build : String → Option σ × Option E) (w : World σ)
    (expr : String) :
    (((Compile build w expr).1.1 = none ∧ (Compile build w expr).1.2 ≠ none) ↔
      (expr = "" ∨ (build expr).2 ≠ none ∨ (build expr).1 = none)) ∧
    (¬ (expr = "" ∨ (build expr).2 ≠ none ∨ (build expr).1 = none) →
      (Compile build w expr).1.1 ≠ none ∧ (Compile build w expr).1.2 = none) ∧
    (∀ qy, expr ≠ "" → build expr = (some qy, none) →
      (Compile build w expr).1 = (some { s := expr, q := w.plansNext }, none) ∧
      (Compile build w expr).2.plans w.plansNext = qy) ∧
    ¬ ((Compile build w expr).1.1 ≠ none ∧ (Compile build w expr).1.2 ≠ none) ∧
    ¬ ((Compile build w expr).1.1 = none ∧ (Compile build w expr).1.2 = none) := by
  by_cases he : expr = ""
  · simp [Compile, he]
  · rcases hb : build expr with ⟨qy, err⟩
    cases err with
    | some e => simp [Compile, he, hb]
    | none =>
      cases qy with
      | none => simp [Compile, he, hb]
      | some q => simp [Compile, he, hb]

/-- C6: the one-shot `Select` panics exactly when `Compile` returns an error,
and then with that error; so it does for the empty expression. Otherwise it
returns the iterator of `Expr.Select` on the compiled expression. -/
theorem Select_panics_iff {σ V E : Type} (build : String → Option σ × Option E)
    (Q : query σ V) (w : World σ) (root : Nat) (expr : String) :
    ((∃ p, Select build Q w root expr = Except.error p) ↔
      (Compile build w expr).1.2 ≠ none) ∧
    (∀ err, (Compile build w expr).1.2 = some err →
      Select build Q w root expr = Except.error (Panic.compile err)) ∧
    Select build Q w root "" = Except.error (Panic.compile CompileError.exprIsNil) ∧
    (∀ exp, (Compile build w expr).1 = (some exp, none) →
      Select build Q w root expr
        = Except.ok (Expr.Select Q (Compile build w expr).2 exp root)) := by
  refine ⟨?_, ?_, ?_, ?_⟩
  · by_cases he : expr = ""
    · simp [Select, Compile, he]
    · rcases hb : build expr with ⟨qy, err⟩
      cases err with
      | some e => simp [Select, Compile, he, hb]
      | none =>
        cases qy with
        | none => simp [Select, Compile, he, hb]
        | some q => simp [Select, Compile, he, hb]
  · intro err herr
    rcases hc : Compile build w expr with ⟨⟨exp, e2⟩, w1⟩
    rw [hc] at herr
    simp only at herr
    subst herr
    simp [Select, hc]
  · simp [Select, Compile]
  · intro exp hexp
    rcases hc : Compile build w expr with ⟨⟨exp2, e2⟩, w1⟩
    rw [hc] at hexp
    simp only [Prod.mk.injEq] at hexp
    obtain ⟨h1, h2⟩ := hexp
    subst h1
    subst h2
    simp [Select, hc]

/-! ## Lemmas on `MoveNext` -/

theorem MoveNext_query {σ V : Type} (Q : query σ V) (w : World σ) (t : NodeIterator) :
    (NodeIterator.MoveNext Q w t).2.2.query = t.query ∧
    NodeIterator.ns2prefix (NodeIterator.MoveNext Q w t).2.2 = t.ns2prefix := by
  unfold NodeIterator.MoveNext
  rcases Q.Select (w.plans t.query) t.ns2prefix (w.navs.cells t.node) with ⟨m, q1, cur⟩
  cases m with
  | none => exact ⟨rfl, rfl⟩
  | some n =>
    simp only
    split_ifs
    · exact ⟨rfl, rfl⟩
    · exact ⟨rfl, rfl⟩

theorem MoveNext_plans {σ V : Type} (Q : query σ V) (w : World σ) (t : NodeIterator) :
    (NodeIterator.MoveNext Q w t).2.1.plans
      = Function.update w.plans t.query
          (Q.Select (w.plans t.query) t.ns2prefix (w.navs.cells t.node)).2.1 ∧
    (NodeIterator.MoveNext Q w t).2.1.plansNext = w.plansNext := by
  unfold NodeIterator.MoveNext
  rcases Q.Select (w.plans t.query) t.ns2prefix (w.navs.cells t.node) with ⟨m, q1, cur⟩
  cases m with
  | none => exact ⟨rfl, rfl⟩
  | some n =>
    simp only
    split_ifs
    · exact ⟨rfl, rfl⟩
    · exact ⟨rfl, rfl⟩

theorem MoveNext_plans_ne {σ V : Type} (Q : query σ V) (w : World σ) (t : NodeIterator)
    (x : Nat) (hx : x ≠ t.query) :
    (NodeIterator.MoveNext Q w t).2.1.plans x = w.plans x := by
  rw [(MoveNext_plans Q w t).1, Function.update_noteq hx]

theorem moveNextN_plans_ne {σ V : Type} (Q : query σ V) (x : Nat) (k : Nat) :
    ∀ (w : World σ) (t : NodeIterator), x ≠ t.query →
      (moveNextN Q k w t).1.plans x = w.plans x ∧
      (moveNextN Q k w t).1.plansNext = w.plansNext ∧
      (moveNextN Q k w t).2.query = t.query := by
  induction k with
  | zero =>
    intro w t _
    exact ⟨rfl, rfl, rfl⟩
  | succ k ih =>
    intro w t hx
    simp only [moveNextN]
    have hq := (MoveNext_query Q w t).1
    have h1 := ih (NodeIterator.MoveNext Q w t).2.1 (NodeIterator.MoveNext Q w t).2.2
      (by rw [hq]; exact hx)
    refine ⟨?_, ?_, ?_⟩
    · rw [h1.1, MoveNext_plans_ne Q w t x hx]
    · rw [h1.2.1, (MoveNext_plans Q w t).2]
    · rw [h1.2.2, hq]

/-- What `MoveNext` returns, and the plan state and the cursor position it
leaves to the iterator, depend only on the state of the iterator's plan, on
the position of its cursor and on its resolver. -/
theorem MoveNext_congr {σ V : Type} (Q : query σ V) (w w2 : World σ) (t t2 : NodeIterator)
    (hq : w.plans t.query = w2.plans t2.query)
    (hc : w.navs.cells t.node = w2.navs.cells t2.node)
    (hn : t.ns2prefix = t2.ns2prefix) :
    (NodeIterator.MoveNext Q w t).1 = (NodeIterator.MoveNext Q w2 t2).1 ∧
    (NodeIterator.MoveNext Q w t).2.1.plans (NodeIterator.MoveNext Q w t).2.2.query
      = (NodeIterator.MoveNext Q w2 t2).2.1.plans (NodeIterator.MoveNext Q w2 t2).2.2.query ∧
    (NodeIterator.MoveNext Q w t).2.1.navs.cells (NodeIterator.MoveNext Q w t).2.2.node
      = (NodeIterator.MoveNext Q w2 t2).2.1.navs.cells
          (NodeIterator.MoveNext Q w2 t2).2.2.node ∧
    NodeIterator.ns2prefix (NodeIterator.MoveNext Q w t).2.2
      = NodeIterator.ns2prefix (NodeIterator.MoveNext Q w2 t2).2.2 := by
  unfold NodeIterator.MoveNext
  rw [← hq, ← hc, ← hn]
  rcases Q.Select (w.plans t.query) t.ns2prefix (w.navs.cells t.node) with ⟨m, q1, cur⟩
  cases m with
  | none => simp [Heap.write, hn]
  | some n =>
    simp only
    split_ifs
    · simp [Heap.write, hn]
    · simp [Heap.write, Heap.alloc, hn]

theorem selectLoop_congr {σ V : Type} (Q : query σ V) (fuel : Nat) :
    ∀ (w w2 : World σ) (t t2 : NodeIterator),
      w.plans t.query = w2.plans t2.query →
      w.navs.cells t.node = w2.navs.cells t2.node →
      t.ns2prefix = t2.ns2prefix →
      selectLoop Q fuel w t = selectLoop Q fuel w2 t2 := by
  induction fuel with
  | zero =>
    intro w w2 t t2 _ _ _
    rfl
  | succ fuel ih =>
    intro w w2 t t2 hq hc hn
    have h := MoveNext_congr Q w w2 t t2 hq hc hn
    simp only [selectLoop, NodeIterator.Current]
    rw [h.1, ih _ _ _ _ h.2.1 h.2.2.1 h.2.2.2, h.2.2.1]

theorem MoveNext_result {σ V : Type} (Q : query σ V) (w : World σ) (t : NodeIterator) :
    (NodeIterator.MoveNext Q w t).1
      = (Q.Select (w.plans t.query) t.ns2prefix (w.navs.cells t.node)).1.isSome := by
  unfold NodeIterator.MoveNext
  rcases Q.Select (w.plans t.query) t.ns2prefix (w.navs.cells t.node) with ⟨m, q1, cur⟩
  cases m with
  | none => rfl
  | some n =>
    simp only
    split_ifs <;> rfl

theorem MoveNext_navs_frame {σ V : Type} (Q : query σ V) (w : World σ) (t : NodeIterator)
    (x : Nat) (hx : x < w.navs.next) (hne : x ≠ t.node) :
    (NodeIterator.MoveNext Q w t).2.1.navs.cells x = w.navs.cells x ∧
    x < (NodeIterator.MoveNext Q w t).2.1.navs.next ∧
    x ≠ (NodeIterator.MoveNext Q w t).2.2.node := by
  have hx2 : x ≠ w.navs.next := Nat.ne_of_lt hx
  unfold NodeIterator.MoveNext
  rcases Q.Select (w.plans t.query) t.ns2prefix (w.navs.cells t.node) with ⟨m, q1, cur⟩
  cases m with
  | none => exact ⟨Heap.write_cells_ne _ _ _ _ hne, hx, hne⟩
  | some n =>
    simp only
    split_ifs
    · exact ⟨Heap.write_cells_ne _ _ _ _ hne, hx, hne⟩
    · refine ⟨?_, ?_, hx2⟩
      · simp [Heap.alloc, Heap.write, Function.update_noteq hx2, Function.update_noteq hne]
      · simp only [Heap.alloc, Heap.write]
        exact Nat.lt_succ_of_lt hx

theorem moveNextN_navs_frame {σ V : Type} (Q : query σ V) (x : Nat) (k : Nat) :
    ∀ (w : World σ) (t : NodeIterator), x < w.navs.next → x ≠ t.node →
      (moveNextN Q k w t).1.navs.cells x = w.navs.cells x := by
  induction k with
  | zero =>
    intro w t _ _
    rfl
  | succ k ih =>
    intro w t hx hne
    have h := MoveNext_navs_frame Q w t x hx hne
    simp only [moveNextN]
    rw [ih _ _ h.2.1 h.2.2, h.1]

/-! ## Properties of `NodeIterator.MoveNext` -/

/-- C9, as the code has it: the cursor of a fresh iterator is the very cursor
object that was passed to `Select` (no copy is made). `MoveNext` returns true
exactly when the plan's `Select` yields a node `m`. When it returns false,
`Current()` is the same cursor object, at the position in which `Select` left
it, and no other cursor object changes. When it returns true and the
iterator's cursor accepts `MoveTo(m)`, that cursor object is moved in place
onto `m` (`curr` and `attr` of `m`, its own root). When it returns true and
`MoveTo(m)` is refused, `Current()` becomes a new object, a copy of `m`, and
`MoveNext` moves no existing cursor object: the old one stays where `Select`
left it. -/
theorem MoveNext_spec {σ V : Type} (Q : query σ V) (w : World σ) (t : NodeIterator) :
    (∀ (e : Expr) (root : Nat) (ns : String → String),
      (Expr.SelectWithNS Q w e root ns).1.Current = root ∧
      (Expr.SelectWithNS Q w e root ns).2.navs = w.navs) ∧
    ((NodeIterator.MoveNext Q w t).1 = true ↔
      (Q.Select (w.plans t.query) t.ns2prefix (w.navs.cells t.node)).1 ≠ none) ∧
    (∀ q1 cur, Q.Select (w.plans t.query) t.ns2prefix (w.navs.cells t.node) = (none, q1, cur) →
      (NodeIterator.MoveNext Q w t).2.2 = t ∧
      (NodeIterator.MoveNext Q w t).2.1.navs.cells t.node = cur ∧
      (∀ x, x ≠ t.node → (NodeIterator.MoveNext Q w t).2.1.navs.cells x = w.navs.cells x) ∧
      (NodeIterator.MoveNext Q w t).2.1.navs.next = w.navs.next) ∧
    (∀ m q1 cur,
      Q.Select (w.plans t.query) t.ns2prefix (w.navs.cells t.node) = (some m, q1, cur) →
      (TNodeNavigator.MoveTo cur (some m)).1 = true →
      (NodeIterator.MoveNext Q w t).2.2 = t ∧
      ((NodeIterator.MoveNext Q w t).2.1.navs.cells t.node).curr = m.curr ∧
      ((NodeIterator.MoveNext Q w t).2.1.navs.cells t.node).attr = m.attr ∧
      ((NodeIterator.MoveNext Q w t).2.1.navs.cells t.node).root = cur.root ∧
      (∀ x, x ≠ t.node → (NodeIterator.MoveNext Q w t).2.1.navs.cells x = w.navs.cells x) ∧
      (NodeIterator.MoveNext Q w t).2.1.navs.next = w.navs.next) ∧
    (∀ m q1 cur,
      Q.Select (w.plans t.query) t.ns2prefix (w.navs.cells t.node) = (some m, q1, cur) →
      (TNodeNavigator.MoveTo cur (some m)).1 = false →
      (NodeIterator.MoveNext Q w t).2.2.Current = w.navs.next ∧
      (NodeIterator.MoveNext Q w t).2.1.navs.cells w.navs.next = m ∧
      (∀ x, x ≠ w.navs.next → x ≠ t.node →
        (NodeIterator.MoveNext Q w t).2.1.navs.cells x = w.navs.cells x) ∧
      (t.node ≠ w.navs.next → (NodeIterator.MoveNext Q w t).2.1.navs.cells t.node = cur) ∧
      (NodeIterator.MoveNext Q w t).2.1.navs.next = w.navs.next + 1) := by
  refine ⟨fun _ _ _ => ⟨rfl, rfl⟩, ?_, ?_, ?_, ?_⟩
  · rw [MoveNext_result]
    cases (Q.Select (w.plans t.query) t.ns2prefix (w.navs.cells t.node)).1 <;> simp
  · intro q1 cur hs
    unfold NodeIterator.MoveNext
    rw [hs]
    refine ⟨rfl, Heap.write_cells_same _ _ _, ?_, rfl⟩
    intro x hx
    exact Heap.write_cells_ne _ _ _ _ hx
  · intro m q1 cur hs hacc
    have hr : m.root = cur.root := by
      by_contra hne
      simp [TNodeNavigator.MoveTo, hne] at hacc
    unfold NodeIterator.MoveNext
    rw [hs]
    simp only [hacc, if_true]
    refine ⟨by trivial, ?_, ?_, ?_, ?_, by trivial⟩
    · rw [Heap.write_cells_same]
      simp [TNodeNavigator.MoveTo, hr]
    · rw [Heap.write_cells_same]
      simp [TNodeNavigator.MoveTo, hr]
    · rw [Heap.write_cells_same]
      simp [TNodeNavigator.MoveTo, hr]
    · intro x hx
      exact Heap.write_cells_ne _ _ _ _ hx
  · intro m q1 cur hs hrej
    unfold NodeIterator.MoveNext
    rw [hs]
    simp only [hrej]
    refine ⟨by trivial, ?_, ?_, ?_, by trivial⟩
    · simp [Heap.alloc, Heap.write, TNodeNavigator.Copy]
    · intro x hx1 hx2
      simp [Heap.alloc, Heap.write, Function.update_noteq hx1, Function.update_noteq hx2]
    · intro hx
      simp [Heap.alloc, Heap.write, Function.update_noteq hx]

/-- C9, as stated, fails on a plan that moves the iterator's cursor while it
searches: with `probeQuery` on the sample document `MoveNext` returns false,
`Current()` is the same object, and its position went from `html` to `head`. -/
theorem MoveNext_false_moves_Current :
    (NodeIterator.MoveNext (probeQuery exampleTree) probeStart.2 probeStart.1).1 = false ∧
    (NodeIterator.MoveNext (probeQuery exampleTree) probeStart.2 probeStart.1).2.2.Current
      = probeStart.1.Current ∧
    probeStart.2.navs.cells probeStart.1.Current = { curr := 1, root := 1, attr := -1 } ∧
    (NodeIterator.MoveNext (probeQuery exampleTree) probeStart.2 probeStart.1).2.1.navs.cells
      probeStart.1.Current = { curr := 2, root := 1, attr := -1 } := by
  refine ⟨by decide, by decide, by decide, by decide⟩

/-- C2, as stated, fails: `NodeIterator` keeps no record of exhaustion. With
`lateQuery` the first `MoveNext` returns false and the second returns true. -/
theorem MoveNext_true_after_false :
    (NodeIterator.MoveNext lateQuery lateStart.2 lateStart.1).1 = false ∧
    (NodeIterator.MoveNext lateQuery
      (NodeIterator.MoveNext lateQuery lateStart.2 lateStart.1).2.1
      (NodeIterator.MoveNext lateQuery lateStart.2 lateStart.1).2.2).1 = true := by
  refine ⟨by decide, by decide⟩

theorem moveNextN_dead {σ V : Type} (Q : query σ V) (Dead : σ → Prop)
    (hdead : ∀ s ns c, Dead s → ∃ s1, Q.Select s ns c = (none, s1, c) ∧ Dead s1) (k : Nat) :
    ∀ (w : World σ) (t : NodeIterator), Dead (w.plans t.query) →
      (NodeIterator.MoveNext Q (moveNextN Q k w t).1 (moveNextN Q k w t).2).1 = false ∧
      (moveNextN Q k w t).2 = t ∧
      (moveNextN Q k w t).1.navs.cells t.node = w.navs.cells t.node := by
  induction k with
  | zero =>
    intro w t hd
    obtain ⟨s1, hs, _⟩ := hdead (w.plans t.query) t.ns2prefix (w.navs.cells t.node) hd
    refine ⟨?_, rfl, rfl⟩
    simp only [moveNextN]
    unfold NodeIterator.MoveNext
    rw [hs]
  | succ k ih =>
    intro w t hd
    obtain ⟨s1, hs, hd1⟩ := hdead (w.plans t.query) t.ns2prefix (w.navs.cells t.node) hd
    have hstep : NodeIterator.MoveNext Q w t
        = (false, { w with navs := w.navs.write t.node (w.navs.cells t.node),
                           plans := Function.update w.plans t.query s1 }, t) := by
      unfold NodeIterator.MoveNext
      rw [hs]
    simp only [moveNextN, hstep]
    have h1 := ih { w with navs := w.navs.write t.node (w.navs.cells t.node),
                           plans := Function.update w.plans t.query s1 } t
      (by simpa using hd1)
    refine ⟨h1.1, h1.2.1, ?_⟩
    rw [h1.2.2]
    exact Heap.write_cells_same _ _ _

/-- C2, amended: for a plan whose `Select`, once it has yielded no node, keeps
yielding no node and leaves the iterator's cursor where it is (`Dead` holds of
the plan states after exhaustion), once `MoveNext` has returned false every
later `MoveNext` returns false, and `Current()` stays the same object at the
position it had. -/
theorem MoveNext_exhausted_absorbing {σ V : Type} (Q : query σ V) (Dead : σ → Prop)
    (hfirst : ∀ s ns c s1 c1, Q.Select s ns c = (none, s1, c1) → Dead s1)
    (hdead : ∀ s ns c, Dead s → ∃ s1, Q.Select s ns c = (none, s1, c) ∧ Dead s1)
    (w : World σ) (t : NodeIterator)
    (hfalse : (NodeIterator.MoveNext Q w t).1 = false) (k : Nat) :
    (NodeIterator.MoveNext Q
      (moveNextN Q k (NodeIterator.MoveNext Q w t).2.1 (NodeIterator.MoveNext Q w t).2.2).1
      (moveNextN Q k (NodeIterator.MoveNext Q w t).2.1 (NodeIterator.MoveNext Q w t).2.2).2).1
        = false ∧
    (moveNextN Q k (NodeIterator.MoveNext Q w t).2.1 (NodeIterator.MoveNext Q w t).2.2).2.Current
      = (NodeIterator.MoveNext Q w t).2.2.Current ∧
    (moveNextN Q k (NodeIterator.MoveNext Q w t).2.1
        (NodeIterator.MoveNext Q w t).2.2).1.navs.cells
      (NodeIterator.MoveNext Q w t).2.2.Current
      = (NodeIterator.MoveNext Q w t).2.1.navs.cells (NodeIterator.MoveNext Q w t).2.2.Current := by
  have hd : Dead ((NodeIterator.MoveNext Q w t).2.1.plans
      (NodeIterator.MoveNext Q w t).2.2.query) := by
    rw [(MoveNext_query Q w t).1, (MoveNext_plans Q w t).1, Function.update_same]
    rcases hs : Q.Select (w.plans t.query) t.ns2prefix (w.navs.cells t.node) with ⟨m, q1, cur⟩
    cases m with
    | none => exact hfirst _ _ _ _ _ hs
    | some n =>
      have := MoveNext_result Q w t
      rw [hs, hfalse] at this
      simp at this
  have h := moveNextN_dead Q Dead hdead k _ _ hd
  refine ⟨h.1, ?_, h.2.2⟩
  rw [h.2.1]

theorem childrenQuery_first (t : Tree) :
    ∀ s ns c s1 c1, (childrenQuery t).Select s ns c = (none, s1, c1) → s1 = ChildState.done := by
  intro s ns c s1 c1 h
  cases s with
  | unstarted =>
    simp only [childrenQuery] at h
    split_ifs at h
    · simp at h
    · simp only [Prod.mk.injEq] at h
      exact h.2.1.symm
  | iterating n =>
    simp only [childrenQuery] at h
    split_ifs at h
    · simp at h
    · simp only [Prod.mk.injEq] at h
      exact h.2.1.symm
  | done =>
    simp only [childrenQuery, Prod.mk.injEq] at h
    exact h.2.1.symm

theorem childrenQuery_dead (t : Tree) :
    ∀ s ns c, s = ChildState.done →
      ∃ s1, (childrenQuery t).Select s ns c = (none, s1, c) ∧ s1 = ChildState.done := by
  intro s ns c hs
  subst hs
  exact ⟨ChildState.done, rfl, rfl⟩

/-- Witness of the amended C2: the child-axis plan on the sample document
yields `head` and `body`; the third `MoveNext` returns false, and so do the
four after it, with `Current()` left on `body`. -/
theorem MoveNext_exhausted_absorbing_witness :
    (NodeIterator.MoveNext (childrenQuery exampleTree)
      (moveNextN (childrenQuery exampleTree) 2 childrenStart.2 childrenStart.1).1
      (moveNextN (childrenQuery exampleTree) 2 childrenStart.2 childrenStart.1).2).1 = false ∧
    (moveNextN (childrenQuery exampleTree) 7 childrenStart.2 childrenStart.1).1.navs.cells 0
      = { curr := 6, root := 1, attr := -1 } ∧
    (NodeIterator.MoveNext (childrenQuery exampleTree)
      (moveNextN (childrenQuery exampleTree) 7 childrenStart.2 childrenStart.1).1
      (moveNextN (childrenQuery exampleTree) 7 childrenStart.2 childrenStart.1).2).1 = false :=
  ⟨by decide, by decide,
    (MoveNext_exhausted_absorbing (childrenQuery exampleTree) (fun s => s = ChildState.done)
      (childrenQuery_first exampleTree) (childrenQuery_dead exampleTree)
      (moveNextN (childrenQuery exampleTree) 2 childrenStart.2 childrenStart.1).1
      (moveNextN (childrenQuery exampleTree) 2 childrenStart.2 childrenStart.1).2
      (by decide) 4).1⟩

/-! ## Properties of `Expr.SelectWithNS` and `Expr.EvaluateWithNS` -/

/-- The iterator of `SelectWithNS` runs on a new plan object: neither the call
nor any number of `MoveNext` on the iterator changes the state of the plan of
the expression. -/
theorem SelectWithNS_keeps_plan {σ V : Type} (Q : query σ V) (w : World σ) (e : Expr)
    (root : Nat) (ns : String → String) (he : e.q < w.plansNext) (k : Nat) :
    (Expr.SelectWithNS Q w e root ns).1.query ≠ e.q ∧
    (Expr.SelectWithNS Q w e root ns).2.plans e.q = w.plans e.q ∧
    (moveNextN Q k (Expr.SelectWithNS Q w e root ns).2
      (Expr.SelectWithNS Q w e root ns).1).1.plans e.q = w.plans e.q := by
  have hne : e.q ≠ w.plansNext := Nat.ne_of_lt he
  have h1 : (Expr.SelectWithNS Q w e root ns).2.plans e.q = w.plans e.q := by
    simp [Expr.SelectWithNS, Function.update_noteq hne]
  refine ⟨hne.symm, h1, ?_⟩
  rw [(moveNextN_plans_ne Q e.q k _ _ hne).1, h1]

/-- After `EvaluateWithNS` the plan of the expression is in the state in which
the plan's `Evaluate` left it: the call runs `Evaluate` on the plan of the
expression itself, and the clone is made afterwards, for the iterator only. -/
theorem EvaluateWithNS_plan_state {σ V : Type} (Q : query σ V) (w : World σ) (e : Expr)
    (root : Nat) (ns : String → String) (he : e.q < w.plansNext) :
    (Expr.EvaluateWithNS Q w e root ns).2.plans e.q
      = (Q.Evaluate (w.plans e.q) ns (w.navs.cells root)).2.1 := by
  have hne : e.q ≠ w.plansNext := Nat.ne_of_lt he
  unfold Expr.EvaluateWithNS
  rcases Q.Evaluate (w.plans e.q) ns (w.navs.cells root) with ⟨v, q1, cur⟩
  cases v with
  | query => simp [Expr.SelectWithNS, Function.update_noteq hne]
  | plain v => simp

/-- C5: when the plan's `Evaluate` yields a query, `EvaluateWithNS` returns
the iterator that `SelectWithNS(root, ns)` builds at that point (a new plan
object holding the clone of the plan as `Evaluate` left it, the cursor `root`,
the resolver `ns`); it is the same iterator value that `SelectWithNS` builds
before the call. In every other case it returns the value that `Evaluate`
produced. -/
theorem EvaluateWithNS_spec {σ V : Type} (Q : query σ V) (w : World σ) (e : Expr)
    (root : Nat) (ns : String → String) :
    (∀ q1 cur, Q.Evaluate (w.plans e.q) ns (w.navs.cells root) = (Val.query, q1, cur) →
      (Expr.EvaluateWithNS Q w e root ns)
        = (EvalOut.iterator
            (Expr.SelectWithNS Q
              { w with navs := w.navs.write root cur,
                       plans := Function.update w.plans e.q q1 } e root ns).1,
           (Expr.SelectWithNS Q
              { w with navs := w.navs.write root cur,
                       plans := Function.update w.plans e.q q1 } e root ns).2) ∧
      (Expr.EvaluateWithNS Q w e root ns).1
        = EvalOut.iterator (Expr.SelectWithNS Q w e root ns).1 ∧
      (Expr.SelectWithNS Q w e root ns).1
        = { query := w.plansNext, node := root, ns2prefix := ns } ∧
      (Expr.EvaluateWithNS Q w e root ns).2.plans w.plansNext = Q.Clone q1) ∧
    (∀ v q1 cur, Q.Evaluate (w.plans e.q) ns (w.navs.cells root) = (Val.plain v, q1, cur) →
      (Expr.EvaluateWithNS Q w e root ns).1 = EvalOut.value v) := by
  refine ⟨?_, ?_⟩
  · intro q1 cur hs
    unfold Expr.EvaluateWithNS
    rw [hs]
    simp [Expr.SelectWithNS]
  · intro v q1 cur hs
    unfold Expr.EvaluateWithNS
    rw [hs]

/-- C3, evaluated on the sample document: `EvaluateWithNS` calls `Evaluate` on
the plan of the expression itself, not on a clone. With the sample plan for
`count(*)`, whose `Evaluate` exhausts the child axis, the call returns 2 and
the plan of the expression goes from `unstarted` to `done`; `SelectWithNS`
on the same input leaves it `unstarted`. -/
theorem EvaluateWithNS_changes_plan :
    (sampleWorld ChildState.unstarted).plans sampleExpr.q = ChildState.unstarted ∧
    (Expr.EvaluateWithNS (countQuery exampleTree) (sampleWorld ChildState.unstarted)
      sampleExpr 0 (fun ns => ns)).1 = EvalOut.value 2 ∧
    (Expr.EvaluateWithNS (countQuery exampleTree) (sampleWorld ChildState.unstarted)
      sampleExpr 0 (fun ns => ns)).2.plans sampleExpr.q = ChildState.done ∧
    (Expr.SelectWithNS (countQuery exampleTree) (sampleWorld ChildState.unstarted)
      sampleExpr 0 (fun ns => ns)).2.plans sampleExpr.q = ChildState.unstarted := by
  refine ⟨by decide, ?_, by decide, by decide⟩
  rfl

/-- C4: two selections of one compiled expression, each with a fresh iterator
of `Expr.Select` and each started from a cursor at the same position, give the
same outcome of the selection loop for every fuel (the same ordered list of
`Current()` positions, or both still running): (1) when the second selection
is created after any number `k` of `MoveNext` calls on the first (none, some,
or up to exhaustion and beyond); (2) when both are created first, on two
cursor objects, and the first is driven `k` calls before the second is run;
(3) creating the second selection does not change the outcome of the first. -/
theorem Select_deterministic {σ V : Type} (Q : query σ V) (w : World σ) (e : Expr)
    (c1 : Nat) (he : e.q < w.plansNext) :
    (∀ k c2 fuel,
      (moveNextN Q k (Expr.Select Q w e c1).2 (Expr.Select Q w e c1).1).1.navs.cells c2
        = w.navs.cells c1 →
      selectLoop Q fuel
        (Expr.Select Q
          (moveNextN Q k (Expr.Select Q w e c1).2 (Expr.Select Q w e c1).1).1 e c2).2
        (Expr.Select Q
          (moveNextN Q k (Expr.Select Q w e c1).2 (Expr.Select Q w e c1).1).1 e c2).1
        = selectLoop Q fuel (Expr.Select Q w e c1).2 (Expr.Select Q w e c1).1) ∧
    (∀ k c2 fuel, c2 ≠ c1 → c2 < w.navs.next → w.navs.cells c2 = w.navs.cells c1 →
      selectLoop Q fuel
        (moveNextN Q k (Expr.Select Q (Expr.Select Q w e c1).2 e c2).2
          (Expr.Select Q w e c1).1).1
        (Expr.Select Q (Expr.Select Q w e c1).2 e c2).1
        = selectLoop Q fuel (Expr.Select Q w e c1).2 (Expr.Select Q w e c1).1) ∧
    (∀ c2 fuel,
      selectLoop Q fuel (Expr.Select Q (Expr.Select Q w e c1).2 e c2).2 (Expr.Select Q w e c1).1
        = selectLoop Q fuel (Expr.Select Q w e c1).2 (Expr.Select Q w e c1).1) := by
  have hne : e.q ≠ w.plansNext := Nat.ne_of_lt he
  refine ⟨?_, ?_, ?_⟩
  · intro k c2 fuel hpos
    apply selectLoop_congr
    · have h := (SelectWithNS_keeps_plan Q w e c1 (fun ns => ns) he k).2.2
      simp only [Expr.Select] at h ⊢
      simp only [Expr.SelectWithNS, Function.update_same] at h ⊢
      rw [h]
    · simp only [Expr.Select, Expr.SelectWithNS] at hpos ⊢
      exact hpos
    · rfl
  · intro k c2 fuel hc hlt hcell
    apply selectLoop_congr
    · have hq : (w.plansNext + 1) ≠ (Expr.Select Q w e c1).1.query := by
        simp [Expr.Select, Expr.SelectWithNS]
      have h := (moveNextN_plans_ne Q (w.plansNext + 1) k
        (Expr.Select Q (Expr.Select Q w e c1).2 e c2).2 (Expr.Select Q w e c1).1 hq).1
      simp only [Expr.Select, Expr.SelectWithNS] at h ⊢
      rw [h]
      simp [Function.update_noteq hne]
    · have h := moveNextN_navs_frame Q c2 k
        (Expr.Select Q (Expr.Select Q w e c1).2 e c2).2 (Expr.Select Q w e c1).1
        (by simpa [Expr.Select, Expr.SelectWithNS] using hlt)
        (by simpa [Expr.Select, Expr.SelectWithNS] using hc)
      simp only [Expr.Select, Expr.SelectWithNS] at h ⊢
      rw [h]
      exact hcell
    · rfl
  · intro c2 fuel
    apply selectLoop_congr
    · simp [Expr.Select, Expr.SelectWithNS]
    · rfl
    · rfl

/-- Witness of C4 on the sample document, with the child-axis plan: the first
selection, from the cursor at address 0, is run to exhaustion (three calls of
`MoveNext`); the second one starts from the cursor at address 1, still on
`html`. Both yield `head`, then `body`; so does the second one when it is
created before the first is run. -/
theorem Select_deterministic_witness :
    (sampleExpr.q < (sampleWorld ChildState.unstarted).plansNext) ∧
    (moveNextN (childrenQuery exampleTree) 3 childrenStart.2 childrenStart.1).1.navs.cells 1
      = (sampleWorld ChildState.unstarted).navs.cells 0 ∧
    selectLoop (childrenQuery exampleTree) 4 childrenStart.2 childrenStart.1
      = some [{ curr := 2, root := 1, attr := -1 }, { curr := 6, root := 1, attr := -1 }] ∧
    selectLoop (childrenQuery exampleTree) 4
      (Expr.Select (childrenQuery exampleTree)
        (moveNextN (childrenQuery exampleTree) 3 childrenStart.2 childrenStart.1).1
        sampleExpr 1).2
      (Expr.Select (childrenQuery exampleTree)
        (moveNextN (childrenQuery exampleTree) 3 childrenStart.2 childrenStart.1).1
        sampleExpr 1).1
      = selectLoop (childrenQuery exampleTree) 4 childrenStart.2 childrenStart.1 ∧
    selectLoop (childrenQuery exampleTree) 4
      (moveNextN (childrenQuery exampleTree) 3
        (Expr.Select (childrenQuery exampleTree) childrenStart.2 sampleExpr 1).2
        childrenStart.1).1
      (Expr.Select (childrenQuery exampleTree) childrenStart.2 sampleExpr 1).1
      = selectLoop (childrenQuery exampleTree) 4 childrenStart.2 childrenStart.1 :=
  ⟨by decide, by decide, by decide,
    (Select_deterministic (childrenQuery exampleTree) (sampleWorld ChildState.unstarted)
      sampleExpr 0 (by decide)).1 3 1 4 (by decide),
    (Select_deterministic (childrenQuery exampleTree) (sampleWorld ChildState.unstarted)
      sampleExpr 0 (by decide)).2.1 3 1 4 (by decide) (by decide) (by decide)⟩

end XPath
